import Mathlib

/-!
Verification of the polaris step-graph construction core
(`polaris/ocean/ice_shelf/__init__.py` and
`polaris/ocean/tasks/isomip_plus/__init__.py`).

Step, Task, Component, the configuration store and the concrete step
classes (`SshForward`, `SshAdjustment`, the mesh and topography steps)
are collaborators whose code is not part of the sources; they are
modelled from the spec, with Python object identity rendered as
allocation identifiers drawn from a per-component counter.
-/

namespace Polaris

/-- Decimal digit character for a value below ten. -/
def digitChar (d : Nat) : Char := Char.ofNat (48 + d)

/-- Fuel-driven decimal rendering of a natural number, least significant
digit last; fuel `n + 1` always suffices. This is structural recursion so
that terms evaluate by kernel reduction. -/
def natDigitsAux : Nat → Nat → List Char
  | 0, _ => []
  | fuel + 1, n =>
    if n < 10 then [digitChar n]
    else natDigitsAux fuel (n / 10) ++ [digitChar (n % 10)]

/-- Decimal rendering of a natural number, matching Python's `f'{n}'`
for an `int`. -/
def natToStr (n : Nat) : String := ⟨natDigitsAux (n + 1) n⟩

/-- A decimal digit character, or `none`. -/
def charDigit (c : Char) : Option Nat :=
  if 48 ≤ c.toNat ∧ c.toNat ≤ 57 then some (c.toNat - 48) else none

/-- Accumulating decimal parse of a character list; fails on any
non-digit. -/
def digitsToNat : List Char → Nat → Option Nat
  | [], acc => some acc
  | c :: rest, acc =>
    match charDigit c with
    | none => none
    | some d => digitsToNat rest (10 * acc + d)

/-- Parse a decimal natural number from a string, as Python's `int(s)`
does for nonnegative decimals; empty or non-numeric strings fail. -/
def strToNat (s : String) : Option Nat :=
  match s.data with
  | [] => none
  | l => digitsToNat l 0

/-- Steps are identified by allocation order within a component; Python
reference equality of two step objects is identity of their ids. -/
abbrev StepId := Nat

/-- Modelled from the spec: the observable attributes of a constructed
Step (§3): its name, its canonical path (`subdir`), the constructor
keyword wiring to other steps (recorded as step ids) or to strings, and
the config file linked by `set_shared_config`. The concrete step classes
(`SshForward`, `SshAdjustment`, `PlanarMesh`, `SphericalMesh`,
`TopoMap`, `TopoRemap`, `CullMesh`, `TopoScale`) are not in the sources;
each is rendered as a `StepData` record tagged by `kind`. -/
structure StepData where
  kind : String
  name : String
  subdir : String
  resolution : Option Nat := none
  mesh : Option StepId := none
  init : Option StepId := none
  forward : Option StepId := none
  meshStep : Option StepId := none
  meshFilename : Option String := none
  topoMap : Option StepId := none
  topoRemap : Option StepId := none
  baseMesh : Option StepId := none
  experiment : Option String := none
  configLink : Option String := none
deriving Repr, DecidableEq

/-- Modelled from the spec: a Component (§3) owns the step registry
`steps` (canonical path to step) and, in this embedding, the allocation
heap giving each constructed step object's data. `nextId` is the next
allocation identifier. -/
structure Component where
  nextId : Nat := 0
  heap : List (StepId × StepData) := []
  steps : List (String × StepId) := []
deriving Repr, DecidableEq

/-- Registry lookup (`subdir in component.steps` /
`component.steps[subdir]`): first match wins, and registration prepends,
so a later registration at the same path shadows an earlier one exactly
as Python dictionary assignment overwrites. -/
def findPath : List (String × StepId) → String → Option StepId
  | [], _ => none
  | (p, sid) :: rest, q => if p = q then some sid else findPath rest q

/-- Heap lookup of a step object's data by its allocation id. -/
def heapFind : List (StepId × StepData) → StepId → Option StepData
  | [], _ => none
  | (i, d) :: rest, j => if i = j then some d else heapFind rest j

/-- Modelled from the spec: constructing a Step allocates a fresh object
and registers it at its canonical path immediately (§3 lifecycle:
"created lazily the first time its canonical path is requested and
registered immediately after creation"). -/
def newStep (c : Component) (d : StepData) : StepId × Component :=
  (c.nextId,
   { nextId := c.nextId + 1,
     heap := (c.nextId, d) :: c.heap,
     steps := (d.subdir, c.nextId) :: c.steps })

/-- Modelled from the spec: a Task (§3, §4.4) with its own subdirectory,
the directory `sshdir` for shared ssh-adjustment steps
(`IceShelfTask.__init__`), and an append-only ordered collection of
added steps, each with its optional symlink (alias) name. -/
structure Task where
  name : String
  subdir : String
  sshdir : String
  steps : List (StepId × Option String) := []
deriving Repr, DecidableEq

/-- Modelled from the spec: `Task.add_step(step, symlink=...)` appends
to the task's ordered step collection (§4.4). -/
def addStep (t : Task) (sid : StepId) (symlink : Option String) : Task :=
  { t with steps := t.steps ++ [(sid, symlink)] }

/-- `IceShelfTask.__init__`: when `sshdir` is `None` it defaults to
`subdir`. -/
def mkIceShelfTask (name subdir : String) (sshdir : Option String) : Task :=
  { name := name, subdir := subdir, sshdir := sshdir.getD subdir }

/-- Modelled from the spec: the layered key/value configuration store
(§6), flattened to its effective (section, key) ↦ value map. -/
abbrev Config := List ((String × String) × String)

/-- Configuration option lookup. -/
def configGet : Config → String → String → Option String
  | [], _, _ => none
  | ((s, k), v) :: rest, sec, key =>
    if s = sec ∧ k = key then some v else configGet rest sec key

/-- Modelled from the spec: `config.getint(section, option)`; a missing
option is a fatal configuration error (§7), a non-numeric value fails
like Python's `int`. -/
def getint (cfg : Config) (sec key : String) : Except String Nat :=
  match configGet cfg sec key with
  | none => .error "configparser.NoOptionError"
  | some v =>
    match strToNat v with
    | none => .error "ValueError"
    | some n => .ok n

/-- Modelled from the spec: the `SshForward` step class (§4.2): a
forward step constructed at canonical path
`{indir}/ssh_adjustment/{name}` from the mesh step and the current
initial state, with the shared config linked at creation
(`set_shared_config` immediately follows construction at the only call
site). -/
def sshForwardCtor (c : Component) (resolution : Nat) (indir : String)
    (mesh init : StepId) (name : String) (configLink : String) :
    StepId × Component :=
  newStep c
    { kind := "SshForward", name := name,
      subdir := indir ++ "/ssh_adjustment/" ++ name,
      resolution := some resolution,
      mesh := some mesh, init := some init,
      configLink := some configLink }

/-- Modelled from the spec: the `SshAdjustment` step class (§4.2): an
adjustment step constructed at canonical path
`{indir}/ssh_adjustment/{name}` from the original initial condition and
a forward step, with the shared config linked at creation. -/
def sshAdjustCtor (c : Component) (resolution : Nat) (indir : String)
    (name : String) (init forward : StepId) (configLink : String) :
    StepId × Component :=
  newStep c
    { kind := "SshAdjustment", name := name,
      subdir := indir ++ "/ssh_adjustment/" ++ name,
      resolution := some resolution,
      init := some init, forward := some forward,
      configLink := some configLink }

/-- The name `f'ssh_forward_{iteration}'` of the forward step of
iteration `i`. -/
def fwdName (i : Nat) : String := "ssh_forward_" ++ natToStr i

/-- The name `f'ssh_adjust_{iteration}'` of the adjust step of
iteration `i`. -/
def adjName (i : Nat) : String := "ssh_adjust_" ++ natToStr i

/-- The canonical path `f'{indir}/ssh_adjustment/{name}'` of the forward
step of iteration `i` under shared directory `indir`. -/
def fwdPath (indir : String) (i : Nat) : String :=
  indir ++ "/ssh_adjustment/" ++ fwdName i

/-- The canonical path `f'{indir}/ssh_adjustment/{name}'` of the adjust
step of iteration `i` under shared directory `indir`. -/
def adjPath (indir : String) (i : Nat) : String :=
  indir ++ "/ssh_adjustment/" ++ adjName i

/-- The mutable locals of the loop in
`IceShelfTask.setup_ssh_adjustment_steps`: the component and task being
mutated, `current_init`, and the Python locals `ssh_forward` and
`shared_step` (each `none` while still unbound). -/
structure LoopState where
  comp : Component
  task : Task
  currentInit : StepId
  sshForwardVar : Option StepId
  sharedStepVar : Option StepId
deriving Repr, DecidableEq

/-- One iteration of the loop body of
`IceShelfTask.setup_ssh_adjustment_steps` (`ice_shelf/__init__.py`,
lines 77-113), for iteration index `i`: look the forward path up in
`component.steps`, construct `SshForward` only on a miss (from `mesh =
init`, `init = current_init`); add it to the task with a symlink name
exactly when `indir` differs from the task's own subdir; then the same
for the adjust path, constructing `SshAdjustment(init=init,
forward=ssh_forward)` on a miss — where `ssh_forward` is the Python
local, which raises `NameError` if no forward step was constructed yet
in this call; finally `current_init` becomes the adjust step. A raised
error is returned alongside the state reached so far, since Python
mutations before the raise persist. -/
def sshBody (resolution : Nat) (init : StepId) (indir configFilename : String)
    (i : Nat) (s : LoopState) : LoopState × Option String :=
  let nameF := fwdName i
  let subdirF := fwdPath indir i
  let (comp1, fwdVar, sharedF) :=
    match findPath s.comp.steps subdirF with
    | some sid => (s.comp, s.sshForwardVar, sid)
    | none =>
      let (fid, c) := sshForwardCtor s.comp resolution indir init
        s.currentInit nameF configFilename
      (c, some fid, fid)
  let symlinkF : Option String :=
    if indir = s.task.subdir then none else some ("ssh_adjustment/" ++ nameF)
  let task1 := addStep s.task sharedF symlinkF
  let nameA := adjName i
  let subdirA := adjPath indir i
  let symlinkA : Option String :=
    if indir = s.task.subdir then none else some ("ssh_adjustment/" ++ nameA)
  match findPath comp1.steps subdirA with
  | some sid =>
    (⟨comp1, addStep task1 sid symlinkA, sid, fwdVar, some sid⟩, none)
  | none =>
    match fwdVar with
    | none =>
      (⟨comp1, task1, s.currentInit, fwdVar, some sharedF⟩,
       some "NameError: name ssh_forward is not defined")
    | some f =>
      let (aid, c) := sshAdjustCtor comp1 resolution indir nameA init f
        configFilename
      (⟨c, addStep task1 aid symlinkA, aid, fwdVar, some aid⟩, none)

/-- The `for iteration in range(num_iterations)` loop of
`setup_ssh_adjustment_steps`, stopping at the first raised error. -/
def sshLoop (resolution : Nat) (init : StepId) (indir configFilename : String) :
    List Nat → LoopState → LoopState × Option String
  | [], s => (s, none)
  | i :: rest, s =>
    match sshBody resolution init indir configFilename i s with
    | (s1, some e) => (s1, some e)
    | (s1, none) => sshLoop resolution init indir configFilename rest s1

/-- `IceShelfTask.setup_ssh_adjustment_steps`
(`ice_shelf/__init__.py`, lines 34-115): read the iteration count from
config section `ssh_adjustment`, run the convergence loop, and return
the last adjust step (`return shared_step`), which raises
`UnboundLocalError` when the loop ran zero times. The component and
task are returned in the state they reached, whether or not an error
was raised. -/
def setup_ssh_adjustment_steps (component : Component) (task : Task)
    (resolution : Nat) (init : StepId) (cfg : Config)
    (configFilename : String) :
    Component × Task × Except String StepId :=
  let indir := task.sshdir
  match getint cfg "ssh_adjustment" "iterations" with
  | .error e => (component, task, .error e)
  | .ok numIterations =>
    match sshLoop resolution init indir configFilename
        (List.range numIterations)
        ⟨component, task, init, none, none⟩ with
    | (s, some e) => (s.comp, s.task, .error e)
    | (s, none) =>
      match s.sharedStepVar with
      | none =>
        (s.comp, s.task,
         .error "UnboundLocalError: local variable shared_step referenced before assignment")
      | some sid => (s.comp, s.task, .ok sid)

/-- Modelled from the spec: the `PlanarMesh` / `SphericalMesh` base-mesh
step classes (§4.3 step 1), constructed at the given `subdir`; both
branches of `_get_shared_steps` end with the config attached. -/
def baseMeshCtor (c : Component) (meshType : String) (resolution : Nat)
    (subdir : String) : StepId × Component :=
  newStep c
    { kind := if meshType = "planar" then "PlanarMesh" else "SphericalMesh",
      name := "base_mesh", subdir := subdir, resolution := some resolution }

/-- Modelled from the spec: the `TopoMap` step class (§4.3 steps 2 and
5): maps topography against the mesh produced by `mesh_step` in file
`mesh_filename`. -/
def topoMapCtor (c : Component) (name subdir : String) (meshName : String)
    (meshStep : StepId) (meshFilename : String) : StepId × Component :=
  newStep c
    { kind := "TopoMap", name := name, subdir := subdir,
      meshStep := some meshStep, meshFilename := some meshFilename,
      experiment := some meshName }

/-- Modelled from the spec: the `TopoRemap` step class (§4.3 steps 3 and
6): remaps topography for one experiment, consuming a `TopoMap` step. -/
def topoRemapCtor (c : Component) (name subdir : String) (topoMap : StepId)
    (experiment : String) : StepId × Component :=
  newStep c
    { kind := "TopoRemap", name := name, subdir := subdir,
      topoMap := some topoMap, experiment := some experiment }

/-- Modelled from the spec: the `CullMesh` step class (§4.3 step 4):
culls the base mesh using the reference topography remap. -/
def cullMeshCtor (c : Component) (subdir : String) (baseMesh : StepId)
    (topoRemap : StepId) : StepId × Component :=
  newStep c
    { kind := "CullMesh", name := "cull_mesh", subdir := subdir,
      baseMesh := some baseMesh, topoRemap := some topoRemap }

/-- Modelled from the spec: the `TopoScale` step class (§4.3 step 8): a
post-process scale step consuming the ocean1 culled remap. -/
def topoScaleCtor (c : Component) (subdir : String) (topoRemap : StepId)
    (experiment : String) : StepId × Component :=
  newStep c
    { kind := "TopoScale", name := "topo_scale", subdir := subdir,
      topoRemap := some topoRemap, experiment := some experiment }

/-- Modelled from the spec: `resolution_to_subdir` (in
`polaris.ocean.resolution`, not among the sources): the spec's
end-to-end property (§8) shows resolution 4 rendered as `4km`. -/
def resolution_to_subdir (resolution : Nat) : String :=
  natToStr resolution ++ "km"

/-- Python dict objects are values on a heap of dictionaries, so that
`shared_steps['ocean0'] = shared_steps['ocean1']` (aliasing the same
object) is distinguishable from `dict(shared_steps['ocean1'])` (a
copy). Entries keep insertion order; `assign` maps each experiment name
to the identifier of its dict object. -/
structure DictHeap where
  nextDict : Nat := 0
  dicts : List (Nat × List (String × StepId)) := []
  assign : List (String × Nat) := []
deriving Repr, DecidableEq

/-- Allocate a fresh dict object with the given entries and bind the
experiment name to it. -/
def newDict (h : DictHeap) (experiment : String)
    (entries : List (String × StepId)) : DictHeap :=
  { nextDict := h.nextDict + 1,
    dicts := (h.nextDict, entries) :: h.dicts,
    assign := (experiment, h.nextDict) :: h.assign }

/-- Bind an experiment name to an existing dict object
(`shared_steps['ocean0'] = shared_steps['ocean1']`). -/
def aliasDict (h : DictHeap) (experiment : String) (did : Nat) : DictHeap :=
  { h with assign := (experiment, did) :: h.assign }

/-- Python `d[k] = v` on an assoc list with insertion order: update in
place if the key exists, else append. -/
def dictSet : List (String × StepId) → String → StepId →
    List (String × StepId)
  | [], k, v => [(k, v)]
  | (k0, v0) :: rest, k, v =>
    if k0 = k then (k, v) :: rest else (k0, v0) :: dictSet rest k v

/-- Dict-object lookup by identifier. -/
def findDict : List (Nat × List (String × StepId)) → Nat →
    Option (List (String × StepId))
  | [], _ => none
  | (i, d) :: rest, j => if i = j then some d else findDict rest j

/-- Assoc-list lookup by experiment or entry key. -/
def findKey : List (String × Nat) → String → Option Nat
  | [], _ => none
  | (k, v) :: rest, q => if k = q then some v else findKey rest q

/-- The per-experiment remap loop of `_get_shared_steps`
(`tasks/isomip_plus/__init__.py`, lines 112-129): for each experiment
construct its `TopoRemap` at `{resdir}/topo/remap_culled/{experiment}`
and allocate its shared-steps dict with the seven entries in insertion
order. Also accumulates the Python local `topo_remap_culled` mapping. -/
def remapCulledLoop (resdir : String) (baseMesh topoMapBase topoRemapBase
    cullMesh topoMapCulled : StepId) :
    List String → Component → DictHeap → List (String × StepId) →
    Component × DictHeap × List (String × StepId)
  | [], comp, h, remaps => (comp, h, remaps)
  | experiment :: rest, comp, h, remaps =>
    let subdir := resdir ++ "/topo/remap_culled/" ++ experiment
    let (rid, comp1) := topoRemapCtor comp "topo_remap_culled" subdir
      topoMapCulled experiment
    let entries : List (String × StepId) :=
      [("base_mesh", baseMesh),
       ("topo/map_base", topoMapBase),
       ("topo/remap_base", topoRemapBase),
       ("topo/cull_mesh", cullMesh),
       ("topo/map_culled", topoMapCulled),
       ("topo/remap_culled", rid),
       ("topo_final", rid)]
    remapCulledLoop resdir baseMesh topoMapBase topoRemapBase cullMesh
      topoMapCulled rest comp1 (newDict h experiment entries)
      (remaps ++ [(experiment, rid)])

/-- The post-process loop of `_get_shared_steps` (lines 134-143): for
inception, wetting and drying, copy the ocean1 dict
(`dict(shared_steps['ocean1'])`), construct a `TopoScale` step at
`{resdir}/topo/scale/{experiment}` consuming the ocean1 culled remap,
and set the `topo/scale` and `topo_final` entries of the copy. -/
def scaleLoop (resdir : String) (ocean1Entries : List (String × StepId))
    (ocean1Remap : StepId) :
    List String → Component → DictHeap → Component × DictHeap
  | [], comp, h => (comp, h)
  | experiment :: rest, comp, h =>
    let subdir := resdir ++ "/topo/scale/" ++ experiment
    let (sid, comp1) := topoScaleCtor comp subdir ocean1Remap experiment
    let entries := dictSet (dictSet ocean1Entries "topo/scale" sid)
      "topo_final" sid
    scaleLoop resdir ocean1Entries ocean1Remap rest comp1
      (newDict h experiment entries)

/-- `_get_shared_steps` (`tasks/isomip_plus/__init__.py`, lines 60-145):
build the base mesh, the topography map/remap on it, the culled mesh,
the map on the culled mesh, the per-experiment culled remaps for
ocean1-ocean4, alias ocean0's dict to ocean1's, and build the scale
steps for inception, wetting and drying on copies of ocean1's dict.
Every step is constructed unconditionally; no registry lookup is made.
Returns the mutated component and the dict heap holding the
`shared_steps` mapping. -/
def get_shared_steps (meshType : String) (resolution : Nat)
    (meshName resdir : String) (component : Component) :
    Component × DictHeap :=
  let subdirB := resdir ++ "/base_mesh"
  let (baseMesh, comp1) := baseMeshCtor component meshType resolution subdirB
  let (topoMapBase, comp2) := topoMapCtor comp1 "topo_map_base"
    (resdir ++ "/topo/map_base") meshName baseMesh "base_mesh.nc"
  let (topoRemapBase, comp3) := topoRemapCtor comp2 "topo_remap_base"
    (resdir ++ "/topo/remap_base") topoMapBase "ocean1"
  let (cullMesh, comp4) := cullMeshCtor comp3 (resdir ++ "/topo/cull_mesh")
    baseMesh topoRemapBase
  let (topoMapCulled, comp5) := topoMapCtor comp4 "topo_map_culled"
    (resdir ++ "/topo/map_culled") meshName cullMesh "culled_mesh.nc"
  let (comp6, h1, remaps) := remapCulledLoop resdir baseMesh topoMapBase
    topoRemapBase cullMesh topoMapCulled
    ["ocean1", "ocean2", "ocean3", "ocean4"] comp5 {} []
  let h2 :=
    match findKey h1.assign "ocean1" with
    | some did => aliasDict h1 "ocean0" did
    | none => h1
  let ocean1Entries := (findKey h1.assign "ocean1").bind (findDict h2.dicts)
  let ocean1Remap := findKey remaps "ocean1"
  match ocean1Entries, ocean1Remap with
  | some entries, some r1 =>
    scaleLoop resdir entries r1 ["inception", "wetting", "drying"] comp6 h2
  | _, _ => (comp6, h2)

/-- The parameter names of `IceShelfTask.__init__`
(`ice_shelf/__init__.py`, line 24), excluding `self`. -/
def iceShelfInitParams : List String :=
  ["component", "resolution", "name", "subdir", "sshdir"]

/-- The keyword arguments `IsomipPlusTest.__init__` passes to
`super().__init__` (`isomip_plus_test.py`, lines 85-86). -/
def isomipSuperCallKwargs : List String :=
  ["component", "min_resolution", "name", "subdir", "sshdir"]

/-- The parameter names of `setup_ssh_adjustment_steps`
(`ice_shelf/__init__.py`, lines 34-37), excluding `self`. -/
def setupSshParams : List String :=
  ["init", "config", "config_filename", "package", "yaml_filename",
   "yaml_replacements"]

/-- The keyword arguments `IsomipPlusTest.__init__` passes to
`setup_ssh_adjustment_steps` (`isomip_plus_test.py`, lines 134-141). -/
def isomipSetupCallKwargs : List String :=
  ["mesh_filename", "graph_filename", "init_filename", "config",
   "config_filename", "ForwardStep", "yaml_filename", "package"]

/-- Python keyword-call acceptance: every keyword argument must name a
declared parameter (none of the callees take `**kwargs`), else the call
raises `TypeError`. -/
def acceptsKwargs (params kwargs : List String) : Bool :=
  kwargs.all (fun k => params.contains k)

/-- `IsomipPlusTest.__init__` (`isomip_plus_test.py`, lines 34-141):
computes the task name, subdir and sshdir, then calls
`super().__init__(component=..., min_resolution=..., name=...,
subdir=..., sshdir=...)`. `IceShelfTask.__init__` does not accept a
`min_resolution` keyword, so the call raises `TypeError` there, before
any shared step is aliased and before `setup_ssh_adjustment_steps` is
reached; the component is returned untouched. (Were the super call to
succeed, the later `setup_ssh_adjustment_steps(mesh_filename=...,
graph_filename=..., init_filename=..., ForwardStep=..., ...)` call
would raise `TypeError` in turn, checked against `setupSshParams`.) -/
def isomipPlusTestInit (component : Component) (resdir : String)
    (resolution : Nat) (experiment verticalCoordinate : String)
    (thinFilm tidalForcing : Bool) :
    Component × Except String Task :=
  let name0 := experiment
  let name1 := if tidalForcing then "tidal_forcing_" ++ name0 else name0
  let name := if thinFilm then "thin_film_" ++ name1 else name1
  let subdir := resdir ++ "/" ++ verticalCoordinate ++ "/" ++ name
  let sshdir := subdir ++ "/adjust_ssh"
  if acceptsKwargs iceShelfInitParams isomipSuperCallKwargs then
    if acceptsKwargs setupSshParams isomipSetupCallKwargs then
      (component, .ok (mkIceShelfTask name subdir (some sshdir)))
    else
      (component,
       .error "TypeError: setup_ssh_adjustment_steps got an unexpected keyword argument")
  else
    (component,
     .error "TypeError: __init__ got an unexpected keyword argument min_resolution")

/-- First build of the shared topography pipeline for resolution 4,
spherical mesh, on an empty component. -/
def sphericalRun1 : Component × DictHeap :=
  get_shared_steps "spherical" 4 "4km" "spherical/isomip_plus/4km" {}

/-- Second build for the same resolution and mesh type, on the component
left by the first build. -/
def sphericalRun2 : Component × DictHeap :=
  get_shared_steps "spherical" 4 "4km" "spherical/isomip_plus/4km"
    sphericalRun1.1

/-- The canonical paths of the twelve steps one
`get_shared_steps "spherical" 4 ...` build constructs, in reverse
construction order (the heap prepends). -/
def topoPaths : List String :=
  ["spherical/isomip_plus/4km/topo/scale/drying",
   "spherical/isomip_plus/4km/topo/scale/wetting",
   "spherical/isomip_plus/4km/topo/scale/inception",
   "spherical/isomip_plus/4km/topo/remap_culled/ocean4",
   "spherical/isomip_plus/4km/topo/remap_culled/ocean3",
   "spherical/isomip_plus/4km/topo/remap_culled/ocean2",
   "spherical/isomip_plus/4km/topo/remap_culled/ocean1",
   "spherical/isomip_plus/4km/topo/map_culled",
   "spherical/isomip_plus/4km/topo/cull_mesh",
   "spherical/isomip_plus/4km/topo/remap_base",
   "spherical/isomip_plus/4km/topo/map_base",
   "spherical/isomip_plus/4km/base_mesh"]

theorem charDigit_digitChar (d : Nat) (h : d < 10) :
    charDigit (digitChar d) = some d := by
  interval_cases d <;> rfl

theorem digitsToNat_append (l1 l2 : List Char) (acc : Nat) :
    digitsToNat (l1 ++ l2) acc =
      (digitsToNat l1 acc).bind (digitsToNat l2) := by
  induction l1 generalizing acc with
  | nil => simp [digitsToNat]
  | cons c l ih =>
    rw [List.cons_append]
    cases h : charDigit c with
    | none => simp [digitsToNat, h]
    | some d => simp [digitsToNat, h, ih]

theorem digitsToNat_natDigitsAux (fuel : Nat) :
    ∀ n, n < fuel → digitsToNat (natDigitsAux fuel n) 0 = some n := by
  induction fuel with
  | zero => intro n h; omega
  | succ fuel ih =>
    intro n hn
    by_cases h10 : n < 10
    · show digitsToNat (if n < 10 then _ else _) 0 = some n
      rw [if_pos h10]
      show (match charDigit (digitChar n) with
            | none => none
            | some d => digitsToNat [] (10 * 0 + d)) = some n
      rw [charDigit_digitChar n h10]
      show some (10 * 0 + n) = some n
      norm_num
    · show digitsToNat (if n < 10 then _ else _) 0 = some n
      rw [if_neg h10, digitsToNat_append]
      have hdiv : n / 10 < n := Nat.div_lt_self (by omega) (by omega)
      rw [ih (n / 10) (by omega)]
      show (match charDigit (digitChar (n % 10)) with
            | none => none
            | some d => digitsToNat [] (10 * (n / 10) + d)) = some n
      rw [charDigit_digitChar (n % 10) (by omega)]
      show some (10 * (n / 10) + n % 10) = some n
      have hmod := Nat.div_add_mod n 10
      exact congrArg some (by omega)

theorem natToStr_inj {m n : Nat} (h : natToStr m = natToStr n) : m = n := by
  have hdata : natDigitsAux (m + 1) m = natDigitsAux (n + 1) n :=
    congrArg String.data h
  have h1 := digitsToNat_natDigitsAux (m + 1) m (by omega)
  have h2 := digitsToNat_natDigitsAux (n + 1) n (by omega)
  rw [hdata, h2] at h1
  exact (Option.some.inj h1).symm

theorem fwdPath_inj {indir : String} {i j : Nat}
    (h : fwdPath indir i = fwdPath indir j) : i = j := by
  have h' : (fwdPath indir i).data = (fwdPath indir j).data :=
    congrArg String.data h
  simp only [fwdPath, fwdName, String.data_append, List.append_assoc] at h'
  have h1 := List.append_cancel_left h'
  have h2 := List.append_cancel_left h1
  have h3 := List.append_cancel_left h2
  exact natToStr_inj (String.ext h3)

theorem adjPath_inj {indir : String} {i j : Nat}
    (h : adjPath indir i = adjPath indir j) : i = j := by
  have h' : (adjPath indir i).data = (adjPath indir j).data :=
    congrArg String.data h
  simp only [adjPath, adjName, String.data_append, List.append_assoc] at h'
  have h1 := List.append_cancel_left h'
  have h2 := List.append_cancel_left h1
  have h3 := List.append_cancel_left h2
  exact natToStr_inj (String.ext h3)

theorem fwdPath_ne_adjPath (indir : String) (i j : Nat) :
    fwdPath indir i ≠ adjPath indir j := by
  intro h
  have h' : (fwdPath indir i).data = (adjPath indir j).data :=
    congrArg String.data h
  simp only [fwdPath, adjPath, fwdName, adjName, String.data_append,
    List.append_assoc] at h'
  have h1 := List.append_cancel_left h'
  have h2 := List.append_cancel_left h1
  have e1 : "ssh_forward_".data ++ (natToStr i).data =
      "ssh_".data ++ ('f' :: ("orward_".data ++ (natToStr i).data)) := rfl
  have e2 : "ssh_adjust_".data ++ (natToStr j).data =
      "ssh_".data ++ ('a' :: ("djust_".data ++ (natToStr j).data)) := rfl
  rw [e1, e2] at h2
  have h3 := List.append_cancel_left h2
  have : 'f' = 'a' := by injection h3
  exact absurd this (by decide)

/-- Allocation id of the forward step of iteration `i` when the loop
constructs every step, starting from allocation counter `base`. -/
def fId (base i : Nat) : Nat := base + 2 * i

/-- Allocation id of the adjust step of iteration `i` when the loop
constructs every step, starting from allocation counter `base`. -/
def aId (base i : Nat) : Nat := base + 2 * i + 1

/-- The symlink under which iteration `i`'s forward step is added:
`None` exactly when the shared directory is the task's own subdir. -/
def symF (indir taskSubdir : String) (i : Nat) : Option String :=
  if indir = taskSubdir then none else some ("ssh_adjustment/" ++ fwdName i)

/-- The symlink under which iteration `i`'s adjust step is added. -/
def symA (indir taskSubdir : String) (i : Nat) : Option String :=
  if indir = taskSubdir then none else some ("ssh_adjustment/" ++ adjName i)

/-- The step data of the forward step of iteration `i` in a run that
constructs every step: its initial state is the original `init` at
iteration 0 and the previous iteration's adjust step afterwards. -/
def fData (base resolution init : Nat) (indir cfgFn : String) (i : Nat) :
    StepData :=
  { kind := "SshForward", name := fwdName i, subdir := fwdPath indir i,
    resolution := some resolution, mesh := some init,
    init := some (if i = 0 then init else aId base (i - 1)),
    configLink := some cfgFn }

/-- The step data of the adjust step of iteration `i` in a run that
constructs every step: it consumes the original `init` and the forward
step of the same iteration. -/
def aData (base resolution init : Nat) (indir cfgFn : String) (i : Nat) :
    StepData :=
  { kind := "SshAdjustment", name := adjName i, subdir := adjPath indir i,
    resolution := some resolution, init := some init,
    forward := some (fId base i), configLink := some cfgFn }

/-- The registry entries `k` fresh loop iterations prepend. -/
def expRegs (base : Nat) (indir : String) : Nat → List (String × StepId)
  | 0 => []
  | k + 1 =>
    (adjPath indir k, aId base k) :: (fwdPath indir k, fId base k) ::
      expRegs base indir k

/-- The heap entries `k` fresh loop iterations prepend. -/
def expHeap (base resolution init : Nat) (indir cfgFn : String) :
    Nat → List (StepId × StepData)
  | 0 => []
  | k + 1 =>
    (aId base k, aData base resolution init indir cfgFn k) ::
      (fId base k, fData base resolution init indir cfgFn k) ::
        expHeap base resolution init indir cfgFn k

/-- The `(step, symlink)` pairs `k` loop iterations append to the task,
in order. -/
def expAdded (base : Nat) (indir taskSubdir : String) :
    Nat → List (StepId × Option String)
  | 0 => []
  | k + 1 =>
    expAdded base indir taskSubdir k ++
      [(fId base k, symF indir taskSubdir k),
       (aId base k, symA indir taskSubdir k)]

theorem findPath_append_none (l1 l2 : List (String × StepId)) (q : String)
    (h : ∀ e ∈ l1, e.1 ≠ q) :
    findPath (l1 ++ l2) q = findPath l2 q := by
  induction l1 with
  | nil => rfl
  | cons e l ih =>
    rw [List.cons_append]
    show (if e.1 = q then some e.2 else findPath (l ++ l2) q) = _
    rw [if_neg (h e (List.mem_cons_self e l))]
    exact ih fun x hx => h x (List.mem_cons_of_mem e hx)

theorem findPath_append_some (l1 l2 : List (String × StepId)) (q : String)
    (v : StepId) (h : findPath l1 q = some v) :
    findPath (l1 ++ l2) q = some v := by
  induction l1 with
  | nil => exact absurd h (by simp [findPath])
  | cons e l ih =>
    rw [List.cons_append]
    show (if e.1 = q then some e.2 else findPath (l ++ l2) q) = some v
    by_cases he : e.1 = q
    · rw [if_pos he]
      rw [show findPath (e :: l) q =
        (if e.1 = q then some e.2 else findPath l q) from rfl, if_pos he] at h
      exact h
    · rw [if_neg he]
      rw [show findPath (e :: l) q =
        (if e.1 = q then some e.2 else findPath l q) from rfl, if_neg he] at h
      exact ih h

theorem heapFind_append_some (l1 l2 : List (StepId × StepData)) (j : StepId)
    (d : StepData) (h : heapFind l1 j = some d) :
    heapFind (l1 ++ l2) j = some d := by
  induction l1 with
  | nil => exact absurd h (by simp [heapFind])
  | cons e l ih =>
    rw [List.cons_append]
    show (if e.1 = j then some e.2 else heapFind (l ++ l2) j) = some d
    by_cases he : e.1 = j
    · rw [if_pos he]
      rw [show heapFind (e :: l) j =
        (if e.1 = j then some e.2 else heapFind l j) from rfl, if_pos he] at h
      exact h
    · rw [if_neg he]
      rw [show heapFind (e :: l) j =
        (if e.1 = j then some e.2 else heapFind l j) from rfl, if_neg he] at h
      exact ih h

theorem mem_expRegs {base : Nat} {indir : String} {k : Nat}
    {e : String × StepId} (h : e ∈ expRegs base indir k) :
    ∃ j, j < k ∧ (e = (fwdPath indir j, fId base j) ∨
      e = (adjPath indir j, aId base j)) := by
  induction k with
  | zero => exact absurd h (by simp [expRegs])
  | succ k ih =>
    rw [expRegs] at h
    simp only [List.mem_cons] at h
    rcases h with h | h | h
    · exact ⟨k, by omega, Or.inr h⟩
    · exact ⟨k, by omega, Or.inl h⟩
    · obtain ⟨j, hj, hor⟩ := ih h
      exact ⟨j, by omega, hor⟩

theorem expRegs_keys_ne_fwd {base : Nat} {indir : String} {k i : Nat}
    (hk : k ≤ i) : ∀ e ∈ expRegs base indir k, e.1 ≠ fwdPath indir i := by
  intro e he
  obtain ⟨j, hj, hor⟩ := mem_expRegs he
  rcases hor with h | h
  · rw [h]
    intro hc
    exact absurd (fwdPath_inj hc) (by omega)
  · rw [h]
    exact (fwdPath_ne_adjPath indir i j).symm

theorem expRegs_keys_ne_adj {base : Nat} {indir : String} {k i : Nat}
    (hk : k ≤ i) : ∀ e ∈ expRegs base indir k, e.1 ≠ adjPath indir i := by
  intro e he
  obtain ⟨j, hj, hor⟩ := mem_expRegs he
  rcases hor with h | h
  · rw [h]
    exact fwdPath_ne_adjPath indir j i
  · rw [h]
    intro hc
    exact absurd (adjPath_inj hc) (by omega)

theorem findPath_expRegs_fwd {base : Nat} {indir : String} {k i : Nat}
    (hi : i < k) :
    findPath (expRegs base indir k) (fwdPath indir i) = some (fId base i) := by
  induction k with
  | zero => omega
  | succ k ih =>
    rw [expRegs]
    show (if adjPath indir k = fwdPath indir i then some (aId base k)
      else findPath ((fwdPath indir k, fId base k) :: expRegs base indir k)
        (fwdPath indir i)) = some (fId base i)
    rw [if_neg (fwdPath_ne_adjPath indir i k).symm]
    show (if fwdPath indir k = fwdPath indir i then some (fId base k)
      else findPath (expRegs base indir k) (fwdPath indir i)) =
        some (fId base i)
    by_cases hik : i = k
    · subst hik
      rw [if_pos rfl]
    · rw [if_neg fun hc => hik (fwdPath_inj hc).symm]
      exact ih (by omega)

theorem findPath_expRegs_adj {base : Nat} {indir : String} {k i : Nat}
    (hi : i < k) :
    findPath (expRegs base indir k) (adjPath indir i) = some (aId base i) := by
  induction k with
  | zero => omega
  | succ k ih =>
    rw [expRegs]
    show (if adjPath indir k = adjPath indir i then some (aId base k)
      else findPath ((fwdPath indir k, fId base k) :: expRegs base indir k)
        (adjPath indir i)) = some (aId base i)
    by_cases hik : i = k
    · subst hik
      rw [if_pos rfl]
    · rw [if_neg fun hc => hik (adjPath_inj hc).symm]
      show (if fwdPath indir k = adjPath indir i then some (fId base k)
        else findPath (expRegs base indir k) (adjPath indir i)) =
          some (aId base i)
      rw [if_neg (fwdPath_ne_adjPath indir k i)]
      exact ih (by omega)

theorem sshBody_hit (resolution init : Nat) (indir cfgFn : String) (i : Nat)
    (s : LoopState) (x y : StepId)
    (hF : findPath s.comp.steps (fwdPath indir i) = some x)
    (hA : findPath s.comp.steps (adjPath indir i) = some y) :
    sshBody resolution init indir cfgFn i s =
      (⟨s.comp,
        addStep (addStep s.task x (symF indir s.task.subdir i)) y
          (symA indir s.task.subdir i),
        y, s.sshForwardVar, some y⟩, none) := by
  simp only [sshBody, hF, hA, symF, symA]

theorem sshBody_fresh (resolution init : Nat) (indir cfgFn : String) (i : Nat)
    (s : LoopState)
    (hF : findPath s.comp.steps (fwdPath indir i) = none)
    (hA : findPath s.comp.steps (adjPath indir i) = none) :
    sshBody resolution init indir cfgFn i s =
      (⟨{ nextId := s.comp.nextId + 1 + 1,
          heap := (s.comp.nextId + 1,
              { kind := "SshAdjustment", name := adjName i,
                subdir := adjPath indir i, resolution := some resolution,
                init := some init, forward := some s.comp.nextId,
                configLink := some cfgFn }) ::
            (s.comp.nextId,
              { kind := "SshForward", name := fwdName i,
                subdir := fwdPath indir i, resolution := some resolution,
                mesh := some init, init := some s.currentInit,
                configLink := some cfgFn }) :: s.comp.heap,
          steps := (adjPath indir i, s.comp.nextId + 1) ::
            (fwdPath indir i, s.comp.nextId) :: s.comp.steps },
        addStep (addStep s.task s.comp.nextId (symF indir s.task.subdir i))
          (s.comp.nextId + 1) (symA indir s.task.subdir i),
        s.comp.nextId + 1, some s.comp.nextId, some (s.comp.nextId + 1)⟩,
       none) := by
  have hA1 : findPath
      ((indir ++ "/ssh_adjustment/" ++ fwdName i, s.comp.nextId) ::
        s.comp.steps) (adjPath indir i) = none := by
    show (if indir ++ "/ssh_adjustment/" ++ fwdName i = adjPath indir i
      then some s.comp.nextId
      else findPath s.comp.steps (adjPath indir i)) = none
    rw [if_neg (show ¬(indir ++ "/ssh_adjustment/" ++ fwdName i =
      adjPath indir i) from fwdPath_ne_adjPath indir i i), hA]
  simp only [sshBody, hF, sshForwardCtor, newStep, hA1, sshAdjustCtor]
  simp only [symF, symA, fwdPath, adjPath]

theorem sshLoop_append_ok (resolution init : Nat) (indir cfgFn : String)
    (l1 l2 : List Nat) (s s1 : LoopState)
    (h : sshLoop resolution init indir cfgFn l1 s = (s1, none)) :
    sshLoop resolution init indir cfgFn (l1 ++ l2) s =
      sshLoop resolution init indir cfgFn l2 s1 := by
  induction l1 generalizing s with
  | nil =>
    rw [show sshLoop resolution init indir cfgFn [] s = (s, none) from rfl]
      at h
    injection h with h1 h2
    rw [← h1]
    rfl
  | cons i l ih =>
    rw [List.cons_append]
    rw [show sshLoop resolution init indir cfgFn (i :: l) s =
      (match sshBody resolution init indir cfgFn i s with
       | (s2, some e) => (s2, some e)
       | (s2, none) => sshLoop resolution init indir cfgFn l s2) from rfl]
      at h
    rcases h0 : sshBody resolution init indir cfgFn i s with ⟨s2, err⟩
    show (match sshBody resolution init indir cfgFn i s with
      | (s2, some e) => (s2, some e)
      | (s2, none) =>
        sshLoop resolution init indir cfgFn (l ++ l2) s2) = _
    rw [h0] at h ⊢
    cases err with
    | none => exact ih s2 h
    | some e => exact absurd (congrArg Prod.snd h) (by simp)

theorem sshLoop_single (resolution init : Nat) (indir cfgFn : String)
    (i : Nat) (s : LoopState) :
    sshLoop resolution init indir cfgFn [i] s =
      sshBody resolution init indir cfgFn i s := by
  rcases h0 : sshBody resolution init indir cfgFn i s with ⟨s1, err⟩
  show (match sshBody resolution init indir cfgFn i s with
    | (s2, some e) => (s2, some e)
    | (s2, none) => sshLoop resolution init indir cfgFn [] s2) = _
  rw [h0]
  cases err <;> rfl

theorem sshLoop_fresh (resolution init : Nat) (indir cfgFn : String)
    (comp0 : Component) (task0 : Task) (K : Nat)
    (H : ∀ i, i < K → findPath comp0.steps (fwdPath indir i) = none ∧
      findPath comp0.steps (adjPath indir i) = none) :
    ∀ k, k ≤ K →
      sshLoop resolution init indir cfgFn (List.range k)
        ⟨comp0, task0, init, none, none⟩ =
      (⟨⟨comp0.nextId + 2 * k,
         expHeap comp0.nextId resolution init indir cfgFn k ++ comp0.heap,
         expRegs comp0.nextId indir k ++ comp0.steps⟩,
        { task0 with steps :=
            task0.steps ++ expAdded comp0.nextId indir task0.subdir k },
        (if k = 0 then init else aId comp0.nextId (k - 1)),
        (if k = 0 then none else some (fId comp0.nextId (k - 1))),
        (if k = 0 then none else some (aId comp0.nextId (k - 1)))⟩, none) := by
  intro k
  induction k with
  | zero =>
    intro _
    simp only [List.range_zero, expHeap, expRegs, expAdded, List.nil_append,
      List.append_nil, Nat.mul_zero, Nat.add_zero, if_pos rfl]
    rfl
  | succ k ih =>
    intro hk1
    have hk : k ≤ K := by omega
    rw [List.range_succ,
      sshLoop_append_ok resolution init indir cfgFn (List.range k) [k] _ _
        (ih hk),
      sshLoop_single]
    have hF : findPath
        (expRegs comp0.nextId indir k ++ comp0.steps) (fwdPath indir k) =
        none := by
      rw [findPath_append_none _ _ _ (expRegs_keys_ne_fwd (Nat.le_refl k))]
      exact (H k (by omega)).1
    have hA : findPath
        (expRegs comp0.nextId indir k ++ comp0.steps) (adjPath indir k) =
        none := by
      rw [findPath_append_none _ _ _ (expRegs_keys_ne_adj (Nat.le_refl k))]
      exact (H k (by omega)).2
    rw [sshBody_fresh resolution init indir cfgFn k _ hF hA]
    simp only [expHeap, expRegs, expAdded, fData, aData, fId, aId, symF,
      symA, addStep, List.append_assoc, List.cons_append, List.nil_append,
      List.singleton_append]
    exact rfl

theorem sshLoop_second (resolution init : Nat) (indir cfgFn : String)
    (comp1 : Component) (task2 : Task) (base K : Nat)
    (Hf : ∀ i, i < K →
      findPath comp1.steps (fwdPath indir i) = some (fId base i))
    (Ha : ∀ i, i < K →
      findPath comp1.steps (adjPath indir i) = some (aId base i)) :
    ∀ k, k ≤ K →
      sshLoop resolution init indir cfgFn (List.range k)
        ⟨comp1, task2, init, none, none⟩ =
      (⟨comp1,
        { task2 with steps :=
            task2.steps ++ expAdded base indir task2.subdir k },
        (if k = 0 then init else aId base (k - 1)),
        none,
        (if k = 0 then none else some (aId base (k - 1)))⟩, none) := by
  intro k
  induction k with
  | zero =>
    intro _
    simp only [List.range_zero, expAdded, List.append_nil, if_pos rfl]
    rfl
  | succ k ih =>
    intro hk1
    have hk : k ≤ K := by omega
    rw [List.range_succ,
      sshLoop_append_ok resolution init indir cfgFn (List.range k) [k] _ _
        (ih hk),
      sshLoop_single,
      sshBody_hit resolution init indir cfgFn k _ (fId base k) (aId base k)
        (Hf k (by omega)) (Ha k (by omega))]
    simp only [expAdded, symF, symA, addStep, List.append_assoc,
      List.cons_append, List.nil_append, List.singleton_append]
    exact rfl

theorem setup_fresh (resolution init : Nat) (cfgFn : String)
    (comp0 : Component) (task0 : Task) (cfg : Config) (K : Nat)
    (hcfg : getint cfg "ssh_adjustment" "iterations" = .ok K)
    (hK : 1 ≤ K)
    (H : ∀ i, i < K →
      findPath comp0.steps (fwdPath task0.sshdir i) = none ∧
      findPath comp0.steps (adjPath task0.sshdir i) = none) :
    setup_ssh_adjustment_steps comp0 task0 resolution init cfg cfgFn =
      (⟨comp0.nextId + 2 * K,
        expHeap comp0.nextId resolution init task0.sshdir cfgFn K ++
          comp0.heap,
        expRegs comp0.nextId task0.sshdir K ++ comp0.steps⟩,
       { task0 with steps :=
           task0.steps ++ expAdded comp0.nextId task0.sshdir task0.subdir K },
       .ok (aId comp0.nextId (K - 1))) := by
  simp only [setup_ssh_adjustment_steps, hcfg]
  rw [sshLoop_fresh resolution init task0.sshdir cfgFn comp0 task0 K H K
    (Nat.le_refl K)]
  simp only [if_neg (show ¬K = 0 by omega)]

theorem setup_second (resolution init : Nat) (cfgFn : String)
    (comp1 : Component) (task2 : Task) (cfg : Config) (base K : Nat)
    (hcfg : getint cfg "ssh_adjustment" "iterations" = .ok K)
    (hK : 1 ≤ K)
    (Hf : ∀ i, i < K →
      findPath comp1.steps (fwdPath task2.sshdir i) = some (fId base i))
    (Ha : ∀ i, i < K →
      findPath comp1.steps (adjPath task2.sshdir i) = some (aId base i)) :
    setup_ssh_adjustment_steps comp1 task2 resolution init cfg cfgFn =
      (comp1,
       { task2 with steps :=
           task2.steps ++ expAdded base task2.sshdir task2.subdir K },
       .ok (aId base (K - 1))) := by
  simp only [setup_ssh_adjustment_steps, hcfg]
  rw [sshLoop_second resolution init task2.sshdir cfgFn comp1 task2 base K
    Hf Ha K (Nat.le_refl K)]
  simp only [if_neg (show ¬K = 0 by omega)]

theorem heapFind_expHeap_f {base resolution init : Nat}
    {indir cfgFn : String} {k i : Nat} (hi : i < k) :
    heapFind (expHeap base resolution init indir cfgFn k) (fId base i) =
      some (fData base resolution init indir cfgFn i) := by
  induction k with
  | zero => omega
  | succ k ih =>
    rw [expHeap]
    show (if aId base k = fId base i
      then some (aData base resolution init indir cfgFn k)
      else heapFind
        ((fId base k, fData base resolution init indir cfgFn k) ::
          expHeap base resolution init indir cfgFn k) (fId base i)) = _
    rw [if_neg (show aId base k ≠ fId base i by
      simp only [aId, fId]; omega)]
    show (if fId base k = fId base i
      then some (fData base resolution init indir cfgFn k)
      else heapFind (expHeap base resolution init indir cfgFn k)
        (fId base i)) = _
    by_cases hik : i = k
    · subst hik
      rw [if_pos rfl]
    · rw [if_neg (show fId base k ≠ fId base i by
        simp only [fId]; omega)]
      exact ih (by omega)

theorem heapFind_expHeap_a {base resolution init : Nat}
    {indir cfgFn : String} {k i : Nat} (hi : i < k) :
    heapFind (expHeap base resolution init indir cfgFn k) (aId base i) =
      some (aData base resolution init indir cfgFn i) := by
  induction k with
  | zero => omega
  | succ k ih =>
    rw [expHeap]
    show (if aId base k = aId base i
      then some (aData base resolution init indir cfgFn k)
      else heapFind
        ((fId base k, fData base resolution init indir cfgFn k) ::
          expHeap base resolution init indir cfgFn k) (aId base i)) = _
    by_cases hik : i = k
    · subst hik
      rw [if_pos rfl]
    · rw [if_neg (show aId base k ≠ aId base i by
        simp only [aId]; omega)]
      show (if fId base k = aId base i
        then some (fData base resolution init indir cfgFn k)
        else heapFind (expHeap base resolution init indir cfgFn k)
          (aId base i)) = _
      rw [if_neg (show fId base k ≠ aId base i by
        simp only [fId, aId]; omega)]
      exact ih (by omega)

theorem mem_expAdded {base : Nat} {ind ts : String} {k : Nat}
    {e : StepId × Option String} (h : e ∈ expAdded base ind ts k) :
    ∃ j, j < k ∧ (e = (fId base j, symF ind ts j) ∨
      e = (aId base j, symA ind ts j)) := by
  induction k with
  | zero => exact absurd h (by simp [expAdded])
  | succ k ih =>
    rw [expAdded] at h
    rcases List.mem_append.mp h with h | h
    · obtain ⟨j, hj, hor⟩ := ih h
      exact ⟨j, by omega, hor⟩
    · simp only [List.mem_cons, List.mem_singleton] at h
      rcases h with h | h | h
      · exact ⟨k, by omega, Or.inl h⟩
      · exact ⟨k, by omega, Or.inr h⟩
      · exact absurd h (by simp)

end Polaris

namespace Polaris

/-- C5: the shared-step mapping for experiment "ocean0" is
reference-identical to the one for "ocean1" — both experiment names are
bound to the same dict object (id 0), whose entries alias steps 0-5 —
and no step constructed by the topography pipeline is an ocean0 step:
its twelve canonical paths are exactly `topoPaths`, none of which is a
path for ocean0, and no step's experiment argument is "ocean0". -/
theorem c5_ocean0_shares_ocean1 :
    findKey sphericalRun1.2.assign "ocean0" = some 0 ∧
    findKey sphericalRun1.2.assign "ocean1" = some 0 ∧
    findDict sphericalRun1.2.dicts 0 =
      some [("base_mesh", 0), ("topo/map_base", 1), ("topo/remap_base", 2),
            ("topo/cull_mesh", 3), ("topo/map_culled", 4),
            ("topo/remap_culled", 5), ("topo_final", 5)] ∧
    sphericalRun1.1.heap.map (fun e => e.2.subdir) = topoPaths ∧
    sphericalRun1.1.heap.all
      (fun e => e.2.experiment ≠ some "ocean0") = true := by
  decide

/-- C6: in the mapping built by `get_shared_steps`, `topo_final` for
experiment "ocean2" is the culled-mesh remap step for ocean2 (step 6 at
`.../topo/remap_culled/ocean2`, the same object as the
`topo/remap_culled` entry); for the post-process experiments
"inception", "wetting" and "drying", `topo_final` and the alias entry
`topo/scale` are the same `TopoScale` object (steps 9, 10, 11), each of
whose `topo_remap` argument is step 5, the ocean1 culled remap. -/
theorem c6_topo_final_resolution :
    findKey sphericalRun1.2.assign "ocean2" = some 1 ∧
    (findDict sphericalRun1.2.dicts 1).map (fun d => findKey d "topo_final") =
      some (some 6) ∧
    (findDict sphericalRun1.2.dicts 1).map
      (fun d => findKey d "topo/remap_culled") = some (some 6) ∧
    (heapFind sphericalRun1.1.heap 6).map (fun d => (d.kind, d.subdir)) =
      some ("TopoRemap", "spherical/isomip_plus/4km/topo/remap_culled/ocean2") ∧
    findKey sphericalRun1.2.assign "wetting" = some 5 ∧
    (findDict sphericalRun1.2.dicts 5).map (fun d => findKey d "topo_final") =
      some (some 10) ∧
    (findDict sphericalRun1.2.dicts 5).map (fun d => findKey d "topo/scale") =
      some (some 10) ∧
    (heapFind sphericalRun1.1.heap 10).map
      (fun d => (d.kind, d.topoRemap)) = some ("TopoScale", some 5) ∧
    findKey sphericalRun1.2.assign "inception" = some 4 ∧
    (findDict sphericalRun1.2.dicts 4).map (fun d =>
      (findKey d "topo_final", findKey d "topo/scale")) =
      some (some 9, some 9) ∧
    (heapFind sphericalRun1.1.heap 9).map
      (fun d => (d.kind, d.topoRemap)) = some ("TopoScale", some 5) ∧
    findKey sphericalRun1.2.assign "drying" = some 6 ∧
    (findDict sphericalRun1.2.dicts 6).map (fun d =>
      (findKey d "topo_final", findKey d "topo/scale")) =
      some (some 11, some 11) ∧
    (heapFind sphericalRun1.1.heap 11).map
      (fun d => (d.kind, d.topoRemap)) = some ("TopoScale", some 5) ∧
    (heapFind sphericalRun1.1.heap 5).map (fun d => d.subdir) =
      some "spherical/isomip_plus/4km/topo/remap_culled/ocean1" := by
  decide

/-- C4 counterexample: building the topography pipeline a second time
for the same resolution and mesh type does not return the identical
steps with zero new constructions — it constructs twelve further Step
objects (`nextId` 12 → 24), and the step the registry then holds at
`.../base_mesh` is the new object 12, not the original object 0. -/
theorem c4_counterexample :
    sphericalRun1.1.nextId = 12 ∧
    sphericalRun2.1.nextId = 24 ∧
    findPath sphericalRun1.1.steps "spherical/isomip_plus/4km/base_mesh" =
      some 0 ∧
    findPath sphericalRun2.1.steps "spherical/isomip_plus/4km/base_mesh" =
      some 12 := by
  decide

/-- C4 amended: building the pipeline for resolution 4, spherical,
produces steps at exactly the claimed canonical paths (`topoPaths`:
`.../topo/map_base`, `.../topo/remap_base`, `.../topo/cull_mesh`,
`.../topo/map_culled`, per-experiment `.../topo/remap_culled/<exp>`,
plus the base mesh and the three scale steps); building it again for
the same resolution and mesh type performs a full fresh construction:
twelve new Step objects at those same twelve canonical paths, with no
reuse of the existing set. -/
theorem c4_amended_paths_and_reconstruction :
    sphericalRun1.1.heap.map (fun e => e.2.subdir) = topoPaths ∧
    sphericalRun2.1.nextId = sphericalRun1.1.nextId + 12 ∧
    (sphericalRun2.1.heap.take 12).map (fun e => e.2.subdir) = topoPaths ∧
    (sphericalRun2.1.heap.take 12).map (fun e => e.1) =
      [23, 22, 21, 20, 19, 18, 17, 16, 15, 14, 13, 12] := by
  decide

/-- C1 counterexample: `get_shared_steps` never consults the registry,
so a build request made while the canonical path
`.../base_mesh` is already registered (to step 0) constructs a second
Step object (12) at that same canonical path — after the second build
the component holds two live Step objects for one canonical path. -/
theorem c1_counterexample :
    findPath sphericalRun1.1.steps "spherical/isomip_plus/4km/base_mesh" =
      some 0 ∧
    (heapFind sphericalRun2.1.heap 0).map (fun d => d.subdir) =
      some "spherical/isomip_plus/4km/base_mesh" ∧
    (heapFind sphericalRun2.1.heap 12).map (fun d => d.subdir) =
      some "spherical/isomip_plus/4km/base_mesh" ∧
    (0 : StepId) ≠ 12 := by
  decide

/-- C1 amended: the lookup-before-create discipline does hold in the
ssh-adjustment convergence loop: when both of iteration `i`'s canonical
paths are already registered, the loop body adds exactly the registered
objects to the task, returns the registered adjust object, and performs
no construction at all (the component is unchanged). -/
theorem c1_amended_loop_reuses_registered (resolution init : Nat)
    (indir cfgFn : String) (i : Nat) (s : LoopState) (x y : StepId)
    (hF : findPath s.comp.steps (fwdPath indir i) = some x)
    (hA : findPath s.comp.steps (adjPath indir i) = some y) :
    sshBody resolution init indir cfgFn i s =
      (⟨s.comp,
        addStep (addStep s.task x (symF indir s.task.subdir i)) y
          (symA indir s.task.subdir i),
        y, s.sshForwardVar, some y⟩, none) :=
  sshBody_hit resolution init indir cfgFn i s x y hF hA

/-- Concrete loop state for the C1 amended witness: a component whose
registry already holds iteration 0's forward and adjust paths. -/
def c1WitState : LoopState :=
  ⟨{ nextId := 2, heap := [],
     steps := [("shared/ssh_adjustment/ssh_forward_0", 0),
               ("shared/ssh_adjustment/ssh_adjust_0", 1)] },
   { name := "t", subdir := "own", sshdir := "shared" }, 0, none, none⟩

theorem c1_amended_witness :
    (findPath c1WitState.comp.steps (fwdPath "shared" 0) = some 0 ∧
     findPath c1WitState.comp.steps (adjPath "shared" 0) = some 1) ∧
    sshBody 5 0 "shared" "cfg.cfg" 0 c1WitState =
      (⟨c1WitState.comp,
        addStep (addStep c1WitState.task 0 (symF "shared" "own" 0)) 1
          (symA "shared" "own" 0),
        1, none, some 1⟩, none) :=
  ⟨⟨by decide, by decide⟩,
   c1_amended_loop_reuses_registered 5 0 "shared" "cfg.cfg" 0 c1WitState 0 1
     (by decide) (by decide)⟩

/-- C2 counterexample: at iteration count K = 0 the claim fails: with an
empty registry neither call returns a final-adjust Step object — the
function raises `UnboundLocalError` at `return shared_step` (it does
construct 0 = 2·0 steps and leaves component and task untouched), so
"both calls return the same final-adjust Step object" is false. -/
theorem c2_counterexample :
    setup_ssh_adjustment_steps {} ⟨"t", "own", "own", []⟩ 4 0
      [(("ssh_adjustment", "iterations"), "0")] "isomip_plus.cfg" =
    ({}, ⟨"t", "own", "own", []⟩,
     .error "UnboundLocalError: local variable shared_step referenced before assignment") :=
  rfl

/-- C2 amended (restricted to K ≥ 1, the K = 0 case raising instead):
for iteration count K read from configuration, a call against a registry
containing none of the ssh-adjustment paths constructs exactly 2K new
steps (the heap gains `expHeap`, K forward and K adjust records);
calling it again (any task with the same shared directory) constructs 0
new steps — the component is unchanged — and both calls return the same
final-adjust Step object `aId comp0.nextId (K - 1)`. -/
theorem c2_amended_exactly_2K_then_0 (resolution init : Nat)
    (cfgFn : String) (comp0 : Component) (task0 task2 : Task)
    (cfg : Config) (K : Nat)
    (hcfg : getint cfg "ssh_adjustment" "iterations" = .ok K)
    (hK : 1 ≤ K)
    (hdir : task2.sshdir = task0.sshdir)
    (H : ∀ i, i < K →
      findPath comp0.steps (fwdPath task0.sshdir i) = none ∧
      findPath comp0.steps (adjPath task0.sshdir i) = none) :
    (setup_ssh_adjustment_steps comp0 task0 resolution init cfg
      cfgFn).1.nextId = comp0.nextId + 2 * K ∧
    (setup_ssh_adjustment_steps comp0 task0 resolution init cfg
      cfgFn).1.heap =
      expHeap comp0.nextId resolution init task0.sshdir cfgFn K ++
        comp0.heap ∧
    (setup_ssh_adjustment_steps comp0 task0 resolution init cfg
      cfgFn).2.2 = .ok (aId comp0.nextId (K - 1)) ∧
    (setup_ssh_adjustment_steps
      (setup_ssh_adjustment_steps comp0 task0 resolution init cfg cfgFn).1
      task2 resolution init cfg cfgFn).1 =
      (setup_ssh_adjustment_steps comp0 task0 resolution init cfg
        cfgFn).1 ∧
    (setup_ssh_adjustment_steps
      (setup_ssh_adjustment_steps comp0 task0 resolution init cfg cfgFn).1
      task2 resolution init cfg cfgFn).2.2 =
      .ok (aId comp0.nextId (K - 1)) := by
  have h1 := setup_fresh resolution init cfgFn comp0 task0 cfg K hcfg hK H
  have Hf : ∀ i, i < K →
      findPath (expRegs comp0.nextId task0.sshdir K ++ comp0.steps)
        (fwdPath task2.sshdir i) = some (fId comp0.nextId i) := by
    intro i hi
    rw [hdir]
    exact findPath_append_some _ _ _ _ (findPath_expRegs_fwd hi)
  have Ha : ∀ i, i < K →
      findPath (expRegs comp0.nextId task0.sshdir K ++ comp0.steps)
        (adjPath task2.sshdir i) = some (aId comp0.nextId i) := by
    intro i hi
    rw [hdir]
    exact findPath_append_some _ _ _ _ (findPath_expRegs_adj hi)
  rw [h1]
  have h2 := setup_second resolution init cfgFn
    ⟨comp0.nextId + 2 * K,
     expHeap comp0.nextId resolution init task0.sshdir cfgFn K ++
       comp0.heap,
     expRegs comp0.nextId task0.sshdir K ++ comp0.steps⟩
    task2 cfg comp0.nextId K hcfg hK Hf Ha
  rw [h2]
  exact ⟨rfl, rfl, rfl, rfl, rfl⟩

/-- Concrete two-iteration configuration for witnesses. -/
def witCfg : Config := [(("ssh_adjustment", "iterations"), "2")]

/-- Concrete task whose shared ssh directory differs from its own
subdirectory. -/
def witTask : Task := ⟨"ocean1", "own/dir", "shared/dir", []⟩

theorem c2_amended_witness :
    (getint witCfg "ssh_adjustment" "iterations" = .ok 2 ∧ 1 ≤ 2 ∧
     witTask.sshdir = witTask.sshdir ∧
     (∀ i, i < 2 →
       findPath (Component.steps {}) (fwdPath witTask.sshdir i) = none ∧
       findPath (Component.steps {}) (adjPath witTask.sshdir i) = none)) ∧
    ((setup_ssh_adjustment_steps {} witTask 4 7 witCfg
       "isomip_plus.cfg").1.nextId = Component.nextId {} + 2 * 2 ∧
     (setup_ssh_adjustment_steps {} witTask 4 7 witCfg
       "isomip_plus.cfg").1.heap =
       expHeap (Component.nextId {}) 4 7 witTask.sshdir "isomip_plus.cfg" 2
         ++ Component.heap {} ∧
     (setup_ssh_adjustment_steps {} witTask 4 7 witCfg
       "isomip_plus.cfg").2.2 = .ok (aId (Component.nextId {}) (2 - 1)) ∧
     (setup_ssh_adjustment_steps
       (setup_ssh_adjustment_steps {} witTask 4 7 witCfg
         "isomip_plus.cfg").1 witTask 4 7 witCfg "isomip_plus.cfg").1 =
       (setup_ssh_adjustment_steps {} witTask 4 7 witCfg
         "isomip_plus.cfg").1 ∧
     (setup_ssh_adjustment_steps
       (setup_ssh_adjustment_steps {} witTask 4 7 witCfg
         "isomip_plus.cfg").1 witTask 4 7 witCfg "isomip_plus.cfg").2.2 =
       .ok (aId (Component.nextId {}) (2 - 1))) :=
  ⟨⟨rfl, by decide, rfl, by decide⟩,
   c2_amended_exactly_2K_then_0 4 7 "isomip_plus.cfg" {} witTask witTask
     witCfg 2 rfl (by decide) rfl (by decide)⟩

/-- C3: iteration chaining. In a run that constructs every step (no
ssh-adjustment path pre-registered), for every iteration `i < K` the
forward step's `init` argument is the adjust step of iteration `i - 1`
(the original initial state exactly at `i = 0`), its `mesh` argument is
the original initial state, and the adjust step's arguments are the
original initial state together with the forward step of the same
iteration `i`; after `i = 0` the forward step's initial state is never
the original one (their ids differ, `init` being an older allocation). -/
theorem c3_iteration_chaining (resolution init : Nat) (cfgFn : String)
    (comp0 : Component) (task0 : Task) (cfg : Config) (K : Nat)
    (hcfg : getint cfg "ssh_adjustment" "iterations" = .ok K)
    (hK : 1 ≤ K)
    (hinit : init < comp0.nextId)
    (H : ∀ i, i < K →
      findPath comp0.steps (fwdPath task0.sshdir i) = none ∧
      findPath comp0.steps (adjPath task0.sshdir i) = none) :
    ∀ i, i < K →
      (heapFind (setup_ssh_adjustment_steps comp0 task0 resolution init cfg
        cfgFn).1.heap (fId comp0.nextId i)).map
          (fun d => (d.kind, d.mesh, d.init)) =
        some ("SshForward", some init,
          some (if i = 0 then init else aId comp0.nextId (i - 1))) ∧
      (heapFind (setup_ssh_adjustment_steps comp0 task0 resolution init cfg
        cfgFn).1.heap (aId comp0.nextId i)).map
          (fun d => (d.kind, d.init, d.forward)) =
        some ("SshAdjustment", some init, some (fId comp0.nextId i)) ∧
      (i ≠ 0 → aId comp0.nextId (i - 1) ≠ init) := by
  intro i hi
  rw [setup_fresh resolution init cfgFn comp0 task0 cfg K hcfg hK H]
  refine ⟨?_, ?_, ?_⟩
  · rw [heapFind_append_some _ _ _ _ (heapFind_expHeap_f hi)]
    simp [fData]
  · rw [heapFind_append_some _ _ _ _ (heapFind_expHeap_a hi)]
    simp [aData]
  · intro _
    simp only [aId]
    omega

/-- Concrete component with one prior allocation, for the C3 witness. -/
def c3WitComp : Component := { nextId := 1 }

theorem c3_witness :
    (getint witCfg "ssh_adjustment" "iterations" = .ok 2 ∧ 1 ≤ 2 ∧
     0 < c3WitComp.nextId ∧
     (∀ i, i < 2 →
       findPath c3WitComp.steps (fwdPath witTask.sshdir i) = none ∧
       findPath c3WitComp.steps (adjPath witTask.sshdir i) = none) ∧
     1 < 2) ∧
    ((heapFind (setup_ssh_adjustment_steps c3WitComp witTask 4 0 witCfg
      "isomip_plus.cfg").1.heap (fId c3WitComp.nextId 1)).map
        (fun d => (d.kind, d.mesh, d.init)) =
      some ("SshForward", some 0,
        some (if 1 = 0 then 0 else aId c3WitComp.nextId (1 - 1))) ∧
     (heapFind (setup_ssh_adjustment_steps c3WitComp witTask 4 0 witCfg
      "isomip_plus.cfg").1.heap (aId c3WitComp.nextId 1)).map
        (fun d => (d.kind, d.init, d.forward)) =
      some ("SshAdjustment", some 0, some (fId c3WitComp.nextId 1)) ∧
     (1 ≠ 0 → aId c3WitComp.nextId (1 - 1) ≠ 0)) :=
  ⟨⟨rfl, by decide, by decide, by decide, by decide⟩,
   c3_iteration_chaining 4 0 "isomip_plus.cfg" c3WitComp witTask witCfg 2
     rfl (by decide) (by decide) (by decide) 1 (by decide)⟩

/-- C7: when the configured iteration count is zero, the call creates no
steps and changes nothing — the component (registry and heap) and the
task's step collection are returned exactly as passed in — and there is
no final shared step: the code raises `UnboundLocalError` at
`return shared_step`. -/
theorem c7_zero_iterations_no_steps (resolution init : Nat)
    (cfgFn : String) (comp : Component) (task : Task) (cfg : Config)
    (hcfg : getint cfg "ssh_adjustment" "iterations" = .ok 0) :
    setup_ssh_adjustment_steps comp task resolution init cfg cfgFn =
      (comp, task,
       .error "UnboundLocalError: local variable shared_step referenced before assignment") := by
  simp only [setup_ssh_adjustment_steps, hcfg, List.range_zero]
  rfl

theorem c7_witness :
    getint [(("ssh_adjustment", "iterations"), "0")] "ssh_adjustment"
      "iterations" = .ok 0 ∧
    setup_ssh_adjustment_steps {} witTask 4 0
      [(("ssh_adjustment", "iterations"), "0")] "isomip_plus.cfg" =
      ({}, witTask,
       .error "UnboundLocalError: local variable shared_step referenced before assignment") :=
  ⟨rfl, c7_zero_iterations_no_steps 4 0 "isomip_plus.cfg" {} witTask
    [(("ssh_adjustment", "iterations"), "0")] rfl⟩

/-- C8: when the required option `iterations` is absent from section
`ssh_adjustment`, the call fails immediately with the configuration
error and atomically: the returned component and task are exactly the
ones passed in — no forward or adjust step was constructed, registered,
or added before the failure. -/
theorem c8_missing_config_atomic (resolution init : Nat) (cfgFn : String)
    (comp : Component) (task : Task) (cfg : Config)
    (hcfg : configGet cfg "ssh_adjustment" "iterations" = none) :
    setup_ssh_adjustment_steps comp task resolution init cfg cfgFn =
      (comp, task, .error "configparser.NoOptionError") := by
  simp only [setup_ssh_adjustment_steps, getint, hcfg]

theorem c8_witness :
    configGet [] "ssh_adjustment" "iterations" = none ∧
    setup_ssh_adjustment_steps {} witTask 4 0 [] "isomip_plus.cfg" =
      ({}, witTask, .error "configparser.NoOptionError") :=
  ⟨rfl, c8_missing_config_atomic 4 0 "isomip_plus.cfg" {} witTask [] rfl⟩

theorem alias_ne_path (ind nm : String) :
    "ssh_adjustment/" ++ nm ≠ ind ++ "/ssh_adjustment/" ++ nm := by
  intro h
  have hlen := congrArg String.length h
  rw [String.length_append, String.length_append,
    String.length_append] at hlen
  have h1 : ("ssh_adjustment/").length = 15 := rfl
  have h2 : ("/ssh_adjustment/").length = 16 := rfl
  omega

/-- C9: alias discipline in the convergence loop. The call appends
exactly the `expAdded` entries to the task, and every appended entry has
no symlink exactly when the shared directory equals the task's own
subdirectory; whenever an entry carries a symlink name, that name
differs from the canonical path (subdir) of the step object it resolves
to. -/
theorem c9_alias_discipline (resolution init : Nat) (cfgFn : String)
    (comp0 : Component) (task0 : Task) (cfg : Config) (K : Nat)
    (hcfg : getint cfg "ssh_adjustment" "iterations" = .ok K)
    (hK : 1 ≤ K)
    (H : ∀ i, i < K →
      findPath comp0.steps (fwdPath task0.sshdir i) = none ∧
      findPath comp0.steps (adjPath task0.sshdir i) = none) :
    (setup_ssh_adjustment_steps comp0 task0 resolution init cfg
      cfgFn).2.1.steps =
      task0.steps ++ expAdded comp0.nextId task0.sshdir task0.subdir K ∧
    ∀ e ∈ expAdded comp0.nextId task0.sshdir task0.subdir K,
      (e.2 = none ↔ task0.sshdir = task0.subdir) ∧
      ∀ a, e.2 = some a →
        (heapFind (setup_ssh_adjustment_steps comp0 task0 resolution init
          cfg cfgFn).1.heap e.1).map (fun d => d.subdir) ≠ some a := by
  rw [setup_fresh resolution init cfgFn comp0 task0 cfg K hcfg hK H]
  constructor
  · rfl
  · intro e he
    obtain ⟨j, hj, hor⟩ := mem_expAdded he
    rcases hor with he1 | he1
    · rw [he1]
      constructor
      · by_cases hd : task0.sshdir = task0.subdir
        · simp [symF, hd]
        · simp [symF, hd]
      · intro a ha
        by_cases hd : task0.sshdir = task0.subdir
        · rw [show (fId comp0.nextId j,
            symF task0.sshdir task0.subdir j).2 =
              symF task0.sshdir task0.subdir j from rfl, symF,
            if_pos hd] at ha
          exact absurd ha (by simp)
        · rw [show (fId comp0.nextId j,
            symF task0.sshdir task0.subdir j).2 =
              symF task0.sshdir task0.subdir j from rfl, symF,
            if_neg hd] at ha
          have ha' : "ssh_adjustment/" ++ fwdName j = a :=
            Option.some.inj ha
          rw [show (fId comp0.nextId j,
            symF task0.sshdir task0.subdir j).1 =
              fId comp0.nextId j from rfl,
            heapFind_append_some _ _ _ _ (heapFind_expHeap_f hj)]
          simp only [Option.map_some']
          intro hc
          have hsub : (fData comp0.nextId resolution init task0.sshdir
            cfgFn j).subdir = a := Option.some.inj hc
          rw [← ha'] at hsub
          exact alias_ne_path task0.sshdir (fwdName j) hsub.symm
    · rw [he1]
      constructor
      · by_cases hd : task0.sshdir = task0.subdir
        · simp [symA, hd]
        · simp [symA, hd]
      · intro a ha
        by_cases hd : task0.sshdir = task0.subdir
        · rw [show (aId comp0.nextId j,
            symA task0.sshdir task0.subdir j).2 =
              symA task0.sshdir task0.subdir j from rfl, symA,
            if_pos hd] at ha
          exact absurd ha (by simp)
        · rw [show (aId comp0.nextId j,
            symA task0.sshdir task0.subdir j).2 =
              symA task0.sshdir task0.subdir j from rfl, symA,
            if_neg hd] at ha
          have ha' : "ssh_adjustment/" ++ adjName j = a :=
            Option.some.inj ha
          rw [show (aId comp0.nextId j,
            symA task0.sshdir task0.subdir j).1 =
              aId comp0.nextId j from rfl,
            heapFind_append_some _ _ _ _ (heapFind_expHeap_a hj)]
          simp only [Option.map_some']
          intro hc
          have hsub : (aData comp0.nextId resolution init task0.sshdir
            cfgFn j).subdir = a := Option.some.inj hc
          rw [← ha'] at hsub
          exact alias_ne_path task0.sshdir (adjName j) hsub.symm

theorem c9_witness :
    (getint witCfg "ssh_adjustment" "iterations" = .ok 2 ∧ 1 ≤ 2 ∧
     (∀ i, i < 2 →
       findPath (Component.steps {}) (fwdPath witTask.sshdir i) = none ∧
       findPath (Component.steps {}) (adjPath witTask.sshdir i) = none)) ∧
    ((setup_ssh_adjustment_steps {} witTask 4 0 witCfg
       "isomip_plus.cfg").2.1.steps =
      witTask.steps ++
        expAdded (Component.nextId {}) witTask.sshdir witTask.subdir 2 ∧
     ∀ e ∈ expAdded (Component.nextId {}) witTask.sshdir witTask.subdir 2,
       (e.2 = none ↔ witTask.sshdir = witTask.subdir) ∧
       ∀ a, e.2 = some a →
         (heapFind (setup_ssh_adjustment_steps {} witTask 4 0 witCfg
           "isomip_plus.cfg").1.heap e.1).map (fun d => d.subdir) ≠
           some a) :=
  ⟨⟨rfl, by decide, by decide⟩,
   c9_alias_discipline 4 0 "isomip_plus.cfg" {} witTask witCfg 2 rfl
     (by decide) (by decide)⟩

/-- C10: the two entry points never interoperate:
`IsomipPlusTest.__init__` passes the keyword `min_resolution` to
`IceShelfTask.__init__`, whose parameter list does not contain it, so
every construction raises `TypeError` at the super call, before any
shared step is aliased and before any ssh-adjustment step is wired (the
component is returned untouched); independently, the keyword arguments
it would pass to `setup_ssh_adjustment_steps` are not accepted by that
signature either. -/
theorem c10_entry_points_never_interoperate :
    acceptsKwargs iceShelfInitParams isomipSuperCallKwargs = false ∧
    acceptsKwargs setupSshParams isomipSetupCallKwargs = false ∧
    ∀ (component : Component) (resdir : String) (resolution : Nat)
      (experiment verticalCoordinate : String)
      (thinFilm tidalForcing : Bool),
      isomipPlusTestInit component resdir resolution experiment
        verticalCoordinate thinFilm tidalForcing =
      (component,
       .error "TypeError: __init__ got an unexpected keyword argument min_resolution") :=
  ⟨rfl, rfl, fun _ _ _ _ _ _ _ => rfl⟩

end Polaris
